import Mathlib

/-!
Shallow embedding of `src/backend/backend.py`: a FastAPI service holding one
global annotation session (`current_image`, `display_image`, `masks`, `points`)
mutated by the handlers `upload_image`, `add_point`, `undo`, and the stateless
classifier endpoint `spam_classify_image`.

Modelling decisions, each checked against the source:
* Images are flattened pixel buffers (`List Pixel`, a pixel being three BGR
  channel values); masks are per-pixel numbers where a value `> 0` counts as
  masked, matching numpy truthiness in `mask.any()` and `overlay[mask > 0]`.
* External collaborators (the SAM predictor, the spam classifier, `cv2`
  decoding/encoding, `cv2.drawMarker`) are outside the repository.  Their
  per-call outcomes enter the model as parameters: `add_point` takes the value
  `predictor.predict` returned (or the exception it raised) for that call, the
  spam endpoint takes the classifier result, and the exact marker geometry of
  `cv2.drawMarker` is an arbitrary in-place image transformation parameter.
* `cv2.addWeighted` computes `saturate(round(src1*alpha + src2*(1-alpha)))`
  per channel; it is modelled over `ℚ` with round-half-up and 0..255
  saturation.  The claims proved about it never hit a rounding tie, so the
  tie-breaking direction is immaterial.
* Python mutates module-level globals in place, and mutations performed before
  an exception persist.  Handlers therefore return a pair: the outcome (a
  normal response, or the uncaught Python exception, which FastAPI surfaces as
  a generic 500) together with the state as left behind, including the partial
  mutations done before a raise.
* Buffer aliasing was checked by hand: `upload_image` stores two separate
  copies (`img.copy()` twice), `undo` rebuilds from `current_image.copy()`,
  and `overlay_mask`/`cv2.addWeighted` allocate fresh output arrays, so the
  in-place `cv2.drawMarker` writes only ever touch the display buffer.  A
  functional record update per field is thus a faithful model.
-/

namespace AvalancheBackend

/-- One pixel: three 8-bit BGR channel values (kept as `ℕ`, validity `≤ 255`
stated where a proof needs it). -/
abbrev Pixel := ℕ × ℕ × ℕ

/-- A decoded image: flattened pixel buffer. -/
abbrev Image := List Pixel

/-- A mask: one number per pixel; `> 0` means the pixel is masked. -/
abbrev Mask := List ℕ

/-- numpy `mask.any()`: true iff some entry is positive. -/
def maskAny (m : Mask) : Bool := m.any (fun v => decide (0 < v))

/-- numpy fancy assignment `overlay[mask > 0] = [255, 0, 0]`: paint every
masked pixel with the fixed highlight colour. -/
def paintMask (image : Image) (m : Mask) : Image :=
  List.zipWith (fun p v => if 0 < v then ((255, 0, 0) : Pixel) else p) image m

/-- One channel of `cv2.addWeighted`: `saturate_cast(round(a*alpha + b*(1-alpha)))`,
modelled with round-half-up and 0..255 saturation. -/
def blendChannel (alpha : ℚ) (a b : ℕ) : ℕ :=
  (max 0 (min 255 ⌊alpha * a + (1 - alpha) * b + 1/2⌋)).toNat

/-- `cv2.addWeighted` on one pixel. -/
def blendPixel (alpha : ℚ) (p q : Pixel) : Pixel :=
  (blendChannel alpha p.1 q.1, blendChannel alpha p.2.1 q.2.1,
   blendChannel alpha p.2.2 q.2.2)

/-- `cv2.addWeighted(i1, alpha, i2, 1 - alpha, 0)`. -/
def addWeighted (i1 : Image) (alpha : ℚ) (i2 : Image) : Image :=
  List.zipWith (blendPixel alpha) i1 i2

/-- `overlay_mask(image, mask, alpha)` from the source: copy the image, paint
masked pixels red on the copy when the mask has any positive pixel, then blend
copy and original with weights `alpha` and `1 - alpha`.  The source's default
argument is `alpha = 0.5`; every engine call site uses that default. -/
def overlay_mask (image : Image) (mask : Mask) (alpha : ℚ) : Image :=
  let overlay := if maskAny mask then paintMask image mask else image
  addWeighted overlay alpha image

/-- The pydantic `Point` request body of `/add_point`. -/
structure Point where
  x : ℤ
  y : ℤ
  label : ℤ
deriving DecidableEq, Repr

/-- The effect of one in-place `cv2.drawMarker(buf, (px, py), ...)` call on the
buffer it mutates.  The exact cross geometry lives in the external cv2 library,
so it stays an arbitrary parameter of the engine. -/
abbrev DrawMarker := Image → ℤ × ℤ → Image

/-- The module-level global session of `backend.py`.  `predictor_image` tracks
the image the segmentation backend was initialised with
(`predictor.set_image`), `none` meaning not initialised. -/
structure SessionState where
  current_image : Option Image
  display_image : Option Image
  masks : List Mask
  points : List (ℤ × ℤ)
  predictor_image : Option Image
deriving DecidableEq, Repr

/-- State at process start: `current_image = None`, `display_image = None`,
`masks = []`, `points = []`, predictor not yet given an image. -/
def initState : SessionState :=
  { current_image := none, display_image := none, masks := [], points := [],
    predictor_image := none }

/-- An uncaught Python exception escaping a handler; FastAPI turns it into a
generic 500 response.  This is a crash, not an explicit structured error. -/
inductive PyError where
  /-- An operation hit an uninitialised (`None`) global reference. -/
  | typeError (msg : String)
  /-- `predictor.predict` raised. -/
  | inference (msg : String)
deriving DecidableEq, Repr

/-- Response body of `/add_point`: the composited display image and the newly
produced mask scaled by 255 (or `None`).  Base64 PNG encoding of both is a
transport boundary and is elided; images are compared as pixel buffers. -/
structure AddPointResp where
  image : Image
  mask : Option Mask
deriving DecidableEq, Repr

/-- `POST /upload`: clear `masks` and `points`, store two copies of the decoded
image as `current_image` and `display_image`, call `predictor.set_image`, and
return the (re-encoded) display image.  Decoding of the uploaded bytes is the
external `cv2.imdecode`; the handler is modelled on its successful output. -/
def upload (s : SessionState) (img : Image) : Except PyError Image × SessionState :=
  let s1 := { s with masks := [], points := [] }
  let s2 := { s1 with current_image := some img, display_image := some img,
                      predictor_image := some img }
  (Except.ok img, s2)

/-- `POST /add_point`: append `(point.x, point.y)` to `points`, then run the
predictor (its outcome for this call is the `predictResult` parameter: the list
of first components `o_masks[i][0]`, or the exception it raised).  If masks came
back, append the first and overlay it on the display image; then redraw every
accumulated point marker in insertion order.  A raise leaves the mutations
already performed in place. -/
def add_point (dm : DrawMarker) (s : SessionState) (pt : Point) (_mo : Bool)
    (predictResult : Except String (List Mask)) :
    Except PyError AddPointResp × SessionState :=
  let s1 := { s with points := s.points ++ [(pt.x, pt.y)] }
  match predictResult with
  | Except.error e => (Except.error (PyError.inference e), s1)
  | Except.ok [] =>
      match s1.display_image with
      | none => (Except.error (PyError.typeError "drawMarker on None"), s1)
      | some d =>
          let d2 := s1.points.foldl dm d
          (Except.ok { image := d2, mask := none }, { s1 with display_image := some d2 })
  | Except.ok (m :: _) =>
      let s2 := { s1 with masks := s1.masks ++ [m] }
      match s2.display_image with
      | none => (Except.error (PyError.typeError "copy on None"), s2)
      | some d =>
          let d1 := overlay_mask d m (1/2)
          let d2 := s2.points.foldl dm d1
          (Except.ok { image := d2, mask := some (m.map (fun v => v * 255)) },
           { s2 with display_image := some d2 })

/-- `POST /undo`: if `points` is non-empty, pop the last point, pop the last
mask when `masks` is non-empty, and rebuild the display image from a fresh copy
of `current_image` by overlaying the remaining masks in insertion order and
then drawing the remaining point markers in insertion order; finally return the
encoded display image (encoding `None` raises). -/
def undo (dm : DrawMarker) (s : SessionState) : Except PyError Image × SessionState :=
  if s.points = [] then
    match s.display_image with
    | none => (Except.error (PyError.typeError "imencode on None"), s)
    | some d => (Except.ok d, s)
  else
    let points2 := s.points.dropLast
    let masks2 := if s.masks = [] then s.masks else s.masks.dropLast
    match s.current_image with
    | none =>
        (Except.error (PyError.typeError "copy on None"),
         { s with points := points2, masks := masks2 })
    | some ci =>
        let d1 := masks2.foldl (fun d m => overlay_mask d m (1/2)) ci
        let d2 := points2.foldl dm d1
        (Except.ok d2, { s with points := points2, masks := masks2,
                                display_image := some d2 })

/-- Response of `/spamcheck`. -/
inductive SpamOutcome where
  /-- `{"spam": b}` with status 200. -/
  | ok (spam : Bool)
  /-- `{"error": detail}` with the given status (400 for a bad content type,
  500 for a caught exception). -/
  | jsonError (status : ℕ) (detail : String)
deriving DecidableEq, Repr

/-- `POST /spamcheck`: reject non-image content types with 400, classify the
decoded image with the external spam classifier (its outcome for this call is
`classifyResult`; a raise is caught and returned as a 500 JSON body), and
answer `{"spam": predicted_class == 0}`.  The handler touches no session or
predictor state. -/
def spam_classify_image (contentTypeIsImage : Bool) (_img : Image)
    (classifyResult : Except String ℕ) (s : SessionState) :
    SpamOutcome × SessionState :=
  if contentTypeIsImage then
    match classifyResult with
    | Except.error e => (SpamOutcome.jsonError 500 e, s)
    | Except.ok c => (SpamOutcome.ok (c == 0), s)
  else
    (SpamOutcome.jsonError 400 "Invalid file type. Please upload an image.", s)

/-- One client request against the session endpoints.  `addPoint` carries the
external predictor's outcome for that call. -/
inductive Op where
  | upload (img : Image)
  | addPoint (pt : Point) (mo : Bool) (predictResult : Except String (List Mask))
  | undo

/-- The session state left behind by one request (responses dropped). -/
def step (dm : DrawMarker) (s : SessionState) : Op → SessionState
  | Op.upload img => (upload s img).snd
  | Op.addPoint pt mo pres => (add_point dm s pt mo pres).snd
  | Op.undo => (undo dm s).snd

/-- Run a request sequence from process start. -/
def run (dm : DrawMarker) (ops : List Op) : SessionState :=
  ops.foldl (step dm) initState

/-- A marker model for concrete evaluations: leaves the buffer unchanged.  The
theorems quantify over every `DrawMarker`; this instance only feeds concrete
counterexamples and witnesses, whose facts are marker-independent. -/
def dmId : DrawMarker := fun d _ => d

/-- A concrete two-pixel image. -/
def img0 : Image := [(5, 7, 9), (0, 0, 0)]

/-- A concrete one-pixel image, distinct from `img0`. -/
def img1 : Image := [(1, 1, 1)]

/-- A concrete request point. -/
def pt0 : Point := { x := 1, y := 2, label := 1 }

/-- A concrete mask with a positive pixel. -/
def mask1 : Mask := [1, 0]

/-- The session right after a successful upload of `img0`. -/
def s0 : SessionState := (upload initState img0).snd

/-- A concrete mid-annotation session: two points, one mask, a display image
that differs from the base image. -/
def sW : SessionState :=
  { current_image := some img0, display_image := some img1,
    masks := [mask1], points := [(1, 2), (3, 4)], predictor_image := some img0 }

/-- A request whose `add_point` backend outcome is guaranteed to contain at
least one mask (`m :: rest`), alongside unrestricted uploads and undos. -/
inductive AOp where
  | upload (img : Image)
  | addPoint (pt : Point) (mo : Bool) (m : Mask) (rest : List Mask)
  | undo

/-- Interpret an accepted-only request as a plain request. -/
def AOp.toOp : AOp → Op
  | AOp.upload img => Op.upload img
  | AOp.addPoint pt mo m rest => Op.addPoint pt mo (Except.ok (m :: rest))
  | AOp.undo => Op.undo

/-- One `add_point` call whose backend produced at least one mask
(`m :: rest`). -/
structure AddCall where
  pt : Point
  mo : Bool
  m : Mask
  rest : List Mask

/-- The request performed by an accepted `add_point` call. -/
def AddCall.toOp (c : AddCall) : Op :=
  Op.addPoint c.pt c.mo (Except.ok (c.m :: c.rest))

/-- The undo transition as the spec states it, built from the spec's words
alone: pop the last point; pop the last mask only if `masks` is non-empty;
rebuild the display image from scratch starting from `currentImage`,
overlaying every remaining mask in insertion order, then drawing every
remaining point's marker in insertion order.  Returns the remaining points,
the remaining masks and the rebuilt display image. -/
def undoSpec (dm : DrawMarker) (ci : Image) (pts : List (ℤ × ℤ))
    (ms : List Mask) : List (ℤ × ℤ) × List Mask × Image :=
  let pts2 := pts.dropLast
  let ms2 := if ms = [] then ms else ms.dropLast
  let afterMasks := ms2.foldl (fun d m => overlay_mask d m (1/2)) ci
  (pts2, ms2, pts2.foldl dm afterMasks)

/-- C10: `add_point` never modifies `current_image` (the base buffer saved at
upload) nor the image the predictor was initialised with; for every prior
state, point, flag and predictor outcome it mutates only `display_image`,
`points` and `masks`. -/
theorem add_point_preserves_base_image (dm : DrawMarker) (s : SessionState)
    (pt : Point) (mo : Bool) (pres : Except String (List Mask)) :
    ((add_point dm s pt mo pres).snd).current_image = s.current_image ∧
    ((add_point dm s pt mo pres).snd).predictor_image = s.predictor_image := by
  rcases pres with e | l
  · exact ⟨rfl, rfl⟩
  · rcases l with _ | ⟨m, rest⟩ <;> rcases hd : s.display_image with _ | d <;>
      simp [add_point, hd]

/-- C3 counterexample: with an initialised session (`s0`, one upload, empty
history), an `add_point` call whose backend raises does NOT leave `points`
as it was: the point was appended before the backend call. -/
theorem add_point_not_atomic_cex :
    ((add_point dmId s0 pt0 false (Except.error "backend failure")).snd).points
      ≠ s0.points := by decide

/-- C3 amended: when the backend call inside `add_point` raises, the failure
surfaces as the uncaught exception (a generic 500) and `masks`,
`display_image` and `current_image` are unchanged, but `points` has already
been mutated: the new point is appended before the backend call. -/
theorem add_point_backend_error_effect (dm : DrawMarker) (s : SessionState)
    (pt : Point) (mo : Bool) (e : String) :
    (add_point dm s pt mo (Except.error e)).fst
        = Except.error (PyError.inference e) ∧
    ((add_point dm s pt mo (Except.error e)).snd).masks = s.masks ∧
    ((add_point dm s pt mo (Except.error e)).snd).display_image
        = s.display_image ∧
    ((add_point dm s pt mo (Except.error e)).snd).current_image
        = s.current_image ∧
    ((add_point dm s pt mo (Except.error e)).snd).points
        = s.points ++ [(pt.x, pt.y)] :=
  ⟨rfl, rfl, rfl, rfl, rfl⟩

/-- C4 counterexample: calling `add_point` before any upload (here with a
backend that returns no mask) crashes with an uncaught exception on the
uninitialised (`None`) display buffer — a generic 500, not an explicit
`BackendNotReady` error (no such error exists anywhere in the code) — and it
even mutates `points` first. -/
theorem add_point_uninitialized_cex :
    (add_point dmId initState pt0 false (Except.ok [])).fst
      = Except.error (PyError.typeError "drawMarker on None") ∧
    ((add_point dmId initState pt0 false (Except.ok [])).snd).points
      = [(1, 2)] :=
  ⟨rfl, rfl⟩

/-- C4 amended: calling `add_point` before any successful upload raises an
uncaught exception (surfaced by the framework as a generic 500 crash) for
every possible backend outcome — there is no explicit `BackendNotReady`
result — and the point has already been appended to `points` when it does. -/
theorem add_point_uninitialized_always_crashes (dm : DrawMarker) (pt : Point)
    (mo : Bool) (pres : Except String (List Mask)) :
    (∃ e, (add_point dm initState pt mo pres).fst = Except.error e) ∧
    ((add_point dm initState pt mo pres).snd).points = [(pt.x, pt.y)] := by
  rcases pres with e | l
  · exact ⟨⟨PyError.inference e, rfl⟩, rfl⟩
  · rcases l with _ | ⟨m, rest⟩
    · exact ⟨⟨PyError.typeError "drawMarker on None", rfl⟩, rfl⟩
    · exact ⟨⟨PyError.typeError "copy on None", rfl⟩, rfl⟩

/-- C6 counterexample: submitting a concrete image that the classifier marks
non-spam (`predicted_class = 1`, so the response is `spam = false`) leaves the
whole session state — in particular the image the segmentation backend was
initialised with — unchanged: starting uninitialised, the predictor is still
uninitialised afterwards, so no segmentation-backend initialization side
effect took place. -/
theorem spamcheck_no_side_effect_cex :
    spam_classify_image true img0 (Except.ok 1) initState
      = (SpamOutcome.ok false, initState) ∧
    initState.predictor_image = none :=
  ⟨rfl, rfl⟩

/-- C6 amended: `/spamcheck` only classifies: for every content type, image,
classifier outcome and prior state it returns the verdict (`spam` iff the
predicted class is 0) or an error body, and leaves the session and predictor
state exactly as they were — it never initialises the segmentation backend. -/
theorem spamcheck_pure (ct : Bool) (img : Image) (cr : Except String ℕ)
    (s : SessionState) :
    (spam_classify_image ct img cr s).snd = s := by
  rcases ct with _ | _
  · rfl
  · rcases cr with e | c <;> rfl

/-- C7 counterexample: calling `undo` in the state before any upload crashes:
`points` is empty so the handler skips to encoding `display_image`, which is
still `None`, and `cv2.imencode` raises — an uncaught exception, not a
graceful "nothing to undo" response. -/
theorem undo_uninitialized_crashes_cex :
    (undo dmId initState).fst
      = Except.error (PyError.typeError "imencode on None") := rfl

/-- C7 amended: once the session is initialised (`current_image` and
`display_image` both set, as after any successful upload), `undo` never
fails — it always returns a display image — and with an empty point history it
is idempotent: it returns the current display image unchanged and leaves the
whole session state unmodified.  Before any upload, `undo` raises (see the
counterexample). -/
theorem undo_initialized_never_fails (dm : DrawMarker) (s : SessionState)
    (d ci : Image) (hd : s.display_image = some d)
    (hc : s.current_image = some ci) :
    (∃ img, (undo dm s).fst = Except.ok img) ∧
    (s.points = [] → undo dm s = (Except.ok d, s)) := by
  by_cases hp : s.points = []
  · refine ⟨⟨d, ?_⟩, fun _ => ?_⟩ <;> simp [undo, hp, hd]
  · refine ⟨⟨(s.points.dropLast).foldl dm
        ((if s.masks = [] then s.masks else s.masks.dropLast).foldl
          (fun b m => overlay_mask b m (1/2)) ci), ?_⟩, fun h => absurd h hp⟩
    simp [undo, hp, hc]

/-- C7 witness: the amended theorem applied to the concrete post-upload
session `s0`: `undo` succeeds, returns the uploaded image unchanged and leaves
the state untouched. -/
theorem undo_initialized_never_fails_witness :
    s0.display_image = some img0 ∧ s0.current_image = some img0 ∧
    ((∃ img, (undo dmId s0).fst = Except.ok img) ∧
     (s0.points = [] → undo dmId s0 = (Except.ok img0, s0))) :=
  ⟨rfl, rfl, undo_initialized_never_fails dmId s0 img0 img0 rfl rfl⟩

/-- `mask.any()` is false on an all-zero mask. -/
theorem maskAny_eq_false (m : Mask) (hz : ∀ v ∈ m, v = 0) :
    maskAny m = false := by
  simp only [maskAny, List.any_eq_false, decide_eq_true_eq]
  intro v hv
  simp [hz v hv]

/-- Blending an 8-bit channel with itself at weights `1/2` and `1/2` returns
it exactly: the sum is the integer itself, so rounding never moves it. -/
theorem blendChannel_self (a : ℕ) (ha : a ≤ 255) :
    blendChannel (1/2) a a = a := by
  unfold blendChannel
  have hq : (1/2 : ℚ) * a + (1 - 1/2) * a + 1/2 = a + 1/2 := by ring
  rw [hq]
  have hfloor : ⌊(a : ℚ) + 1/2⌋ = (a : ℤ) := by
    rw [Int.floor_eq_iff]
    constructor
    · push_cast; linarith
    · push_cast; linarith
  rw [hfloor, min_eq_right (by exact_mod_cast ha),
    max_eq_right (Int.natCast_nonneg a)]
  exact Int.toNat_natCast a

/-- Blending an 8-bit pixel with itself at `alpha = 1/2` is the identity. -/
theorem blendPixel_self (p : Pixel)
    (h : p.1 ≤ 255 ∧ p.2.1 ≤ 255 ∧ p.2.2 ≤ 255) :
    blendPixel (1/2) p p = p := by
  obtain ⟨a, b, c⟩ := p
  obtain ⟨h1, h2, h3⟩ := h
  simp only [blendPixel]
  rw [blendChannel_self a h1, blendChannel_self b h2, blendChannel_self c h3]

/-- `cv2.addWeighted(img, 1/2, img, 1/2, 0)` on an 8-bit image is the
identity. -/
theorem addWeighted_self (img : Image)
    (hv : ∀ p ∈ img, p.1 ≤ 255 ∧ p.2.1 ≤ 255 ∧ p.2.2 ≤ 255) :
    addWeighted img (1/2) img = img := by
  induction img with
  | nil => rfl
  | cons p rest ih =>
      simp only [addWeighted, List.zipWith_cons_cons] at *
      rw [blendPixel_self p (hv p (List.mem_cons_self p rest))]
      rw [ih (fun q hq => hv q (List.mem_cons_of_mem p hq))]

/-- C8: `overlay_mask` with an all-zero mask at the source's default
`alpha = 0.5` is an identity on every 8-bit image: no pixel is painted, and
the blend of the image with itself returns every channel exactly. -/
theorem overlay_allzero_identity (img : Image) (mask : Mask)
    (hz : ∀ v ∈ mask, v = 0)
    (hv : ∀ p ∈ img, p.1 ≤ 255 ∧ p.2.1 ≤ 255 ∧ p.2.2 ≤ 255) :
    overlay_mask img mask (1/2) = img := by
  unfold overlay_mask
  rw [maskAny_eq_false mask hz]
  simp only [Bool.false_eq_true, if_false]
  exact addWeighted_self img hv

/-- C8 witness: the identity evaluated on the concrete image `img0` and a
concrete all-zero mask. -/
theorem overlay_allzero_identity_witness :
    (∀ v ∈ ([0, 0] : Mask), v = 0) ∧
    overlay_mask img0 [0, 0] (1/2) = img0 :=
  ⟨by decide, overlay_allzero_identity img0 [0, 0] (by decide) (by decide)⟩

/-- Every single request keeps `masks` no longer than `points` — including
`add_point` calls whose backend returned nothing or raised, and `undo` on a
point without a mask. -/
theorem step_preserves_le (dm : DrawMarker) (s : SessionState) (op : Op)
    (h : s.masks.length ≤ s.points.length) :
    (step dm s op).masks.length ≤ (step dm s op).points.length := by
  cases op with
  | upload img => simp [step, upload]
  | addPoint pt mo pres =>
      rcases pres with e | ⟨_ | ⟨m, rest⟩⟩ <;>
        rcases hd : s.display_image with _ | d <;>
        simp [step, add_point, hd] <;> omega
  | undo =>
      by_cases hp : s.points = []
      · have h2 : s.masks = [] := by simpa [hp] using h
        rcases hd : s.display_image with _ | d <;> simp [step, undo, hp, hd, h2]
      · have hlen : 0 < s.points.length := List.length_pos.mpr hp
        rcases hc : s.current_image with _ | ci <;>
          by_cases hm : s.masks = [] <;>
          simp [step, undo, hp, hc, hm, List.length_dropLast] <;> omega

/-- C9: after every request sequence from process start — uploads, `add_point`
calls with arbitrary backend outcomes (mask, no mask, or a raise), undos —
`masks` never outnumbers `points`: a mask is only ever appended together with
a point, and `undo` pops a mask only when it also pops a point. -/
theorem masks_never_outnumber_points (dm : DrawMarker) (ops : List Op) :
    (run dm ops).masks.length ≤ (run dm ops).points.length := by
  have main : ∀ (l : List Op) (s : SessionState),
      s.masks.length ≤ s.points.length →
      (l.foldl (step dm) s).masks.length
        ≤ (l.foldl (step dm) s).points.length := by
    intro l
    induction l with
    | nil => intro s h; exact h
    | cons op rest ih =>
        intro s h
        exact ih (step dm s op) (step_preserves_le dm s op h)
  exact main ops initState (Nat.le_refl 0)

/-- C1 counterexample: upload `img0`, then one `add_point` call for which the
segmentation backend returns no mask.  The operation completes (no exception),
yet afterwards `len(points) = 1` while `len(masks) = 0`: the invariant
`len(points) == len(masks)` is broken. -/
theorem invariant_breaks_on_maskless_add_cex :
    ¬ ((run dmId [Op.upload img0, Op.addPoint pt0 false (Except.ok [])]).points.length
        = (run dmId [Op.upload img0,
            Op.addPoint pt0 false (Except.ok [])]).masks.length) := by
  decide

/-- Each accepted-only request preserves `len(points) = len(masks)`. -/
theorem stepA_preserves_eq (dm : DrawMarker) (s : SessionState) (a : AOp)
    (h : s.points.length = s.masks.length) :
    (step dm s a.toOp).points.length = (step dm s a.toOp).masks.length := by
  cases a with
  | upload img => simp [AOp.toOp, step, upload]
  | addPoint pt mo m rest =>
      rcases hd : s.display_image with _ | d <;>
        simp [AOp.toOp, step, add_point, hd] <;> omega
  | undo =>
      by_cases hp : s.points = []
      · have h2 : s.masks = [] := by
          have h3 := h.symm
          rw [hp] at h3
          simpa using h3
        rcases hd : s.display_image with _ | d <;>
          simp [AOp.toOp, step, undo, hp, hd, h2]
      · have hpl : 0 < s.points.length := List.length_pos.mpr hp
        have hm : ¬ s.masks = [] := by
          intro hme
          rw [hme] at h
          simp at h
          exact hp h
        rcases hc : s.current_image with _ | ci <;>
          simp [AOp.toOp, step, undo, hp, hm, hc, List.length_dropLast] <;> omega

/-- C1 amended: the invariant `len(points) == len(masks)` does hold after
every request sequence in which each `add_point` call's backend returned at
least one mask; a call whose backend returns no mask (or raises) instead
leaves `points` one longer than `masks` (see the counterexample). -/
theorem points_eq_masks_when_all_masked (dm : DrawMarker) (aops : List AOp) :
    (run dm (aops.map AOp.toOp)).points.length
      = (run dm (aops.map AOp.toOp)).masks.length := by
  have main : ∀ (l : List AOp) (s : SessionState),
      s.points.length = s.masks.length →
      ((l.map AOp.toOp).foldl (step dm) s).points.length
        = ((l.map AOp.toOp).foldl (step dm) s).masks.length := by
    intro l
    induction l with
    | nil => intro s h; exact h
    | cons a rest ih =>
        intro s h
        simp only [List.map_cons, List.foldl_cons]
        exact ih (step dm s a.toOp) (stepA_preserves_eq dm s a h)
  exact main aops initState rfl

/-- C5: on a non-empty history in an initialised session, the source's `undo`
refines the spec's algorithm exactly: the new state carries the popped lists
and the display image rebuilt by `undoSpec` from `currentImage`, the response
is that rebuilt image, and the result is independent of the previous
`displayImage` (the rebuild starts from `currentImage`, not from it). -/
theorem undo_matches_spec_rebuild (dm : DrawMarker) (s : SessionState)
    (ci : Image) (hp : s.points ≠ []) (hc : s.current_image = some ci) :
    (undo dm s).snd =
      { s with points := (undoSpec dm ci s.points s.masks).1,
               masks := (undoSpec dm ci s.points s.masks).2.1,
               display_image := some (undoSpec dm ci s.points s.masks).2.2 } ∧
    (undo dm s).fst = Except.ok (undoSpec dm ci s.points s.masks).2.2 ∧
    ∀ d0, undo dm { s with display_image := d0 } = undo dm s := by
  refine ⟨?_, ?_, ?_⟩
  · simp [undo, undoSpec, hp, hc]
  · simp [undo, undoSpec, hp, hc]
  · intro d0
    simp [undo, hp, hc]

/-- C5 witness: the refinement applied to a concrete session holding two
points, one mask and a display image different from the base image. -/
theorem undo_matches_spec_rebuild_witness :
    sW.points ≠ [] ∧ sW.current_image = some img0 ∧
    (undo dmId sW).snd =
      { sW with points := (undoSpec dmId img0 sW.points sW.masks).1,
                masks := (undoSpec dmId img0 sW.points sW.masks).2.1,
                display_image := some (undoSpec dmId img0 sW.points sW.masks).2.2 } :=
  ⟨by decide, rfl, (undo_matches_spec_rebuild dmId sW img0 (by decide) rfl).1⟩

/-- An accepted `add_point` call keeps the base image and grows both history
lists by exactly one. -/
theorem addCall_step_fields (dm : DrawMarker) (s : SessionState) (c : AddCall) :
    (step dm s c.toOp).current_image = s.current_image ∧
    (step dm s c.toOp).points.length = s.points.length + 1 ∧
    (step dm s c.toOp).masks.length = s.masks.length + 1 := by
  rcases hd : s.display_image with _ | d <;>
    simp [AddCall.toOp, step, add_point, hd]

/-- Running a list of accepted `add_point` calls keeps the base image and
grows both history lists by the number of calls. -/
theorem add_phase (dm : DrawMarker) : ∀ (cs : List AddCall) (s : SessionState),
    ((cs.map AddCall.toOp).foldl (step dm) s).current_image = s.current_image ∧
    ((cs.map AddCall.toOp).foldl (step dm) s).points.length
      = s.points.length + cs.length ∧
    ((cs.map AddCall.toOp).foldl (step dm) s).masks.length
      = s.masks.length + cs.length := by
  intro cs
  induction cs with
  | nil => intro s; exact ⟨rfl, rfl, rfl⟩
  | cons c rest ih =>
      intro s
      simp only [List.map_cons, List.foldl_cons, List.length_cons]
      obtain ⟨h1, h2, h3⟩ := addCall_step_fields dm s c
      obtain ⟨g1, g2, g3⟩ := ih (step dm s c.toOp)
      refine ⟨g1.trans h1, ?_, ?_⟩
      · rw [g2, h2]; omega
      · rw [g3, h3]; omega

/-- One `undo` on a session with both histories non-empty pops both lists and
rebuilds the display from the base image. -/
theorem undo_step_pop (dm : DrawMarker) (s : SessionState) (img : Image)
    (hc : s.current_image = some img) (hpne : s.points ≠ [])
    (hmne : s.masks ≠ []) :
    step dm s Op.undo =
      { s with points := s.points.dropLast, masks := s.masks.dropLast,
               display_image := some ((s.points.dropLast).foldl dm
                 ((s.masks.dropLast).foldl
                   (fun b m => overlay_mask b m (1/2)) img)) } := by
  simp [step, undo, hpne, hmne, hc]

/-- `n` undos starting from a session whose histories both have length `n`
empty both histories; when `n > 0` they leave the display equal to the base
image, and when `n = 0` they change nothing. -/
theorem undo_phase (dm : DrawMarker) : ∀ (n : ℕ) (s : SessionState)
    (img : Image), s.current_image = some img →
    s.points.length = n → s.masks.length = n →
    ((List.replicate n Op.undo).foldl (step dm) s).points = [] ∧
    ((List.replicate n Op.undo).foldl (step dm) s).masks = [] ∧
    ((List.replicate n Op.undo).foldl (step dm) s).display_image
      = (if n = 0 then s.display_image else some img) := by
  intro n
  induction n with
  | zero =>
      intro s img hc hp hm
      have hp2 : s.points = [] := List.length_eq_zero.mp hp
      have hm2 : s.masks = [] := List.length_eq_zero.mp hm
      simp [hp2, hm2]
  | succ n ih =>
      intro s img hc hp hm
      have hpne : s.points ≠ [] := by
        intro h
        rw [h] at hp
        simp at hp
      have hmne : s.masks ≠ [] := by
        intro h
        rw [h] at hm
        simp at hm
      rw [List.replicate_succ, List.foldl_cons,
        undo_step_pop dm s img hc hpne hmne]
      have hpl : s.points.dropLast.length = n := by
        simp [List.length_dropLast, hp]
      have hml : s.masks.dropLast.length = n := by
        simp [List.length_dropLast, hm]
      obtain ⟨g1, g2, g3⟩ := ih
        { s with points := s.points.dropLast, masks := s.masks.dropLast,
                 display_image := some ((s.points.dropLast).foldl dm
                   ((s.masks.dropLast).foldl
                     (fun b m => overlay_mask b m (1/2)) img)) }
        img hc hpl hml
      refine ⟨g1, g2, ?_⟩
      rw [g3]
      rcases Nat.eq_zero_or_pos n with hn | hn
      · have hp0 : s.points.dropLast = [] :=
          List.length_eq_zero.mp (hpl.trans hn)
        have hm0 : s.masks.dropLast = [] :=
          List.length_eq_zero.mp (hml.trans hn)
        simp [hn, hp0, hm0]
      · simp [Nat.pos_iff_ne_zero.mp hn]

/-- C2: for every freshly uploaded session and every `N`: `N` `add_point`
calls, each of whose backend produced a mask, followed by `N` `undo` calls
leave the engine exactly in the post-upload state: `points = []`,
`masks = []`, and the display image is pixel-identical to the image the
upload/reset returned. -/
theorem n_undos_revert_n_adds (dm : DrawMarker) (img : Image)
    (cs : List AddCall) :
    (run dm (Op.upload img ::
        (cs.map AddCall.toOp ++ List.replicate cs.length Op.undo))).points
      = [] ∧
    (run dm (Op.upload img ::
        (cs.map AddCall.toOp ++ List.replicate cs.length Op.undo))).masks
      = [] ∧
    (run dm (Op.upload img ::
        (cs.map AddCall.toOp ++
          List.replicate cs.length Op.undo))).display_image = some img ∧
    (upload initState img).fst = Except.ok img := by
  have hrun : run dm (Op.upload img ::
      (cs.map AddCall.toOp ++ List.replicate cs.length Op.undo))
      = (List.replicate cs.length Op.undo).foldl (step dm)
          ((cs.map AddCall.toOp).foldl (step dm)
            (step dm initState (Op.upload img))) := by
    simp [run, List.foldl_cons, List.foldl_append]
  obtain ⟨h1, h2, h3⟩ := add_phase dm cs (step dm initState (Op.upload img))
  have hcur : (step dm initState (Op.upload img)).current_image = some img :=
    rfl
  have hdisp : (step dm initState (Op.upload img)).display_image = some img :=
    rfl
  have hpts : (step dm initState (Op.upload img)).points.length = 0 := rfl
  have hmsk : (step dm initState (Op.upload img)).masks.length = 0 := rfl
  obtain ⟨g1, g2, g3⟩ := undo_phase dm cs.length
    ((cs.map AddCall.toOp).foldl (step dm) (step dm initState (Op.upload img)))
    img (h1.trans hcur) (by rw [h2, hpts]; omega) (by rw [h3, hmsk]; omega)
  refine ⟨?_, ?_, ?_, rfl⟩
  · rw [hrun]; exact g1
  · rw [hrun]; exact g2
  · rw [hrun, g3]
    rcases cs with _ | ⟨c, rest⟩
    · simpa using hdisp
    · simp

end AvalancheBackend
